import Mathlib

/-!
Shallow embedding of the Mathixyz frontend (React/TypeScript) client code:
the upload page submit handler, the ImageUpload component state, the shared
axios API client with its response interceptor, the status-page polling
loop, the MathRenderer LaTeX cleanup, and the LessonViewer step navigation.

JavaScript strings are modelled as Lean `String` (or `List Char` where
character-level scanning matters); an optional/possibly-`undefined` string
field whose only uses are truthiness tests is modelled as `String` with
`""` standing for the falsy values (`undefined` and `""` behave identically
in every use site embedded here), or as `Option String` where presence
matters.  `File` objects are opaque and modelled by `Nat` identities.
-/

namespace Mathixyz

/-! ## Data model: ImageFile (frontend/src/components/ImageUpload.tsx and
UploadPage), with `file` opaque and `preview` the object URL string. -/

/-- Embedding of the `ImageFile` interface: `\x7b file: File; preview: string;
tag?: string \x7d`.  `tag` is read only through JavaScript truthiness, so the
falsy `undefined` is identified with `""`. -/
structure ImageFile where
  file : Nat
  preview : String
  tag : String
  deriving Repr, DecidableEq

/-! ## UploadPage (src/unnamed/part_001): handleUpload -/

/-- Result of the submit handler: either a client-side validation error shown
to the user with no HTTP request issued, or the upload request that is sent
(the ordered `files` form entries and the ordered `tags` list whose
comma-join is the `tags` form entry). -/
inductive SubmitOutcome where
  | validationError (msg : String)
  | request (files : List Nat) (tags : List String)
  deriving Repr, DecidableEq

/-- Embedding of the tag accumulation loop in `handleUpload`:
`files.forEach((fileObj, index) => tags.push(fileObj.tag || pic(index+1)))`.
The JavaScript `||` takes the default exactly when `fileObj.tag` is falsy
(unset or empty). -/
def buildTags (files : List ImageFile) : List String :=
  files.mapIdx fun index fileObj =>
    if fileObj.tag = "" then "pic" ++ toString (index + 1) else fileObj.tag

/-- Embedding of `handleUpload` in UploadPage: an empty selection yields the
validation error and returns before any request; otherwise the form data is
built (one `files` entry per file in order, plus the joined `tags` entry)
and the upload request is issued. -/
def handleUpload (files : List ImageFile) : SubmitOutcome :=
  if files.length = 0 then
    SubmitOutcome.validationError "Please select at least one image to upload"
  else
    SubmitOutcome.request (files.map (·.file)) (buildTags files)

/-! ## ImageUpload component (frontend/src/components/ImageUpload.tsx) -/

/-- Embedding of `onDrop`: the accepted files (each paired with its freshly
created object URL) are wrapped with an empty tag, appended after the files
already held, and the combined list is truncated by
`.slice(0, maxFiles)`. -/
def onDrop (maxFiles : Nat) (files : List ImageFile)
    (acceptedFiles : List (Nat × String)) : List ImageFile :=
  let newFiles := acceptedFiles.map fun p =>
    { file := p.1, preview := p.2, tag := "" }
  (files ++ newFiles).take maxFiles

/-- Embedding of `removeFile`: `files.filter((_, i) => i !== index)`, i.e.
the element at position `index` is dropped and all others kept in order. -/
def removeFile (files : List ImageFile) (index : Nat) : List ImageFile :=
  (files.enum.filter fun p => p.1 ≠ index).map (·.2)

/-- Embedding of `updateTag`:
`files.map((file, i) => i === index ? \x7b ...file, tag \x7d : file)`. -/
def updateTag (files : List ImageFile) (index : Nat) (tag : String) :
    List ImageFile :=
  files.mapIdx fun i file =>
    if i = index then { file with tag := tag } else file

/-- Event alphabet for the ImageUpload component state: a dropzone drop with
some accepted files, or a click on the remove button of entry `i`. -/
inductive UploadEvent where
  | drop (acceptedFiles : List (Nat × String))
  | remove (index : Nat)
  deriving Repr

/-- One step of the ImageUpload state (`files ∈ useState`). -/
def uploadStep (maxFiles : Nat) (files : List ImageFile) :
    UploadEvent → List ImageFile
  | UploadEvent.drop accepted => onDrop maxFiles files accepted
  | UploadEvent.remove i => removeFile files i

/-- The file list held after a sequence of drop/remove events, starting from
the initial empty `useState` value. -/
def uploadRun (maxFiles : Nat) (events : List UploadEvent) : List ImageFile :=
  events.foldl (uploadStep maxFiles) []

/-- The `maxFiles` value the upload page instantiates `ImageUpload` with. -/
def uploadPageMaxFiles : Nat := 5

/-! ## Shared API client (src/unnamed/part_000, services/api) -/

/-- JavaScript `a || b` on strings: `b` when `a` is falsy (absent or empty),
`a` otherwise. -/
def jsOrString (a : Option String) (b : String) : String :=
  match a with
  | some s => if s = "" then b else s
  | none => b

/-- Configuration record produced by `axios.create`. -/
structure ApiConfig where
  baseURL : String
  timeout : Nat
  deriving Repr, DecidableEq

/-- Embedding of the `api` axios instance:
`axios.create(\x7b baseURL: API_BASE_URL, timeout: 30000 \x7d)` where
`API_BASE_URL = process.env.REACT_APP_API_URL || localhost:8000`.  The
environment variable is the parameter. -/
def api (envApiUrl : Option String) : ApiConfig :=
  { baseURL := jsOrString envApiUrl "http://localhost:8000"
    timeout := 30000 }

/-- The `error.response` object of a failed axios request: HTTP status and
the optional `data.detail` payload.  Absent (`undefined`) for network-level
failures such as timeouts. -/
structure AxiosErrorResponse where
  status : Nat
  detail : Option String
  deriving Repr, DecidableEq

/-- A rejected axios request as seen by the response interceptor. -/
structure AxiosError where
  response : Option AxiosErrorResponse
  code : Option String
  message : String
  deriving Repr, DecidableEq

/-- Embedding of the rejection branch of `api.interceptors.response.use`:
the message of the `Error` the interceptor throws, following the source's
test order (404, 500, `ECONNABORTED`, missing response, then
`detail || message || fallback`). -/
def interceptError (error : AxiosError) : String :=
  if error.response.map (·.status) = some 404 then "Resource not found"
  else if error.response.map (·.status) = some 500 then "Server error occurred"
  else if error.code = some "ECONNABORTED" then "Request timed out"
  else if error.response = none then
    "Network error - please check if the backend is running"
  else
    jsOrString (error.response.bind (·.detail))
      (jsOrString (some error.message) "An error occurred")

/-- Outcome of one request through the shared `api` instance: the backend
either answers (the interceptor forwards the parsed body unchanged) or the
request fails and the interceptor throws the mapped error message. -/
def runApi {T : Type} (result : Sum AxiosError T) : Except String T :=
  match result with
  | Sum.inl e => Except.error (interceptError e)
  | Sum.inr v => Except.ok v

/-- Embedding of the `UploadResponse` interface. -/
structure UploadResponse where
  job_id : String
  message : String
  deriving Repr, DecidableEq

/-- Embedding of the `JobStatusResponse` interface: exactly the fields
`job_id`, `status`, `created_at` (strings), `ocr_done`, `llm_done`,
`lesson_built` (booleans), and the optional `lesson_id` and `error`. -/
structure JobStatusResponse where
  job_id : String
  status : String
  created_at : String
  ocr_done : Bool
  llm_done : Bool
  lesson_built : Bool
  lesson_id : Option String
  error : Option String
  deriving Repr, DecidableEq

/-- Embedding of the `LessonResponse` interface (step payloads opaque). -/
structure LessonResponse where
  lesson_id : String
  title : String
  summary : Option String
  total_steps : Nat
  steps : List Nat
  created_at : String
  job_id : String
  deriving Repr, DecidableEq

/-- Embedding of `uploadImages`: a POST through the shared `api` instance,
returning `response.data`. -/
def uploadImages (result : Sum AxiosError UploadResponse) :
    Except String UploadResponse :=
  runApi result

/-- Embedding of `getJobStatus`: a GET through the shared `api` instance,
returning `response.data`. -/
def getJobStatus (result : Sum AxiosError JobStatusResponse) :
    Except String JobStatusResponse :=
  runApi result

/-- Embedding of `getLesson`: a GET through the shared `api` instance,
returning `response.data`. -/
def getLesson (result : Sum AxiosError LessonResponse) :
    Except String LessonResponse :=
  runApi result

/-! ## StatusPage polling loop (frontend/src/pages/StatusPage.tsx) -/

/-- What one invocation of `pollStatus` does after its `getJobStatus`
settles: either no further request is scheduled, or exactly one re-poll is
scheduled `delayMs` milliseconds later via `setTimeout`. -/
inductive PollAction where
  | stop
  | reschedule (delayMs : Nat)
  deriving Repr, DecidableEq

/-- JavaScript truthiness of the optional `lesson_id` string field. -/
def optStringTruthy (o : Option String) : Prop :=
  match o with
  | some s => s ≠ ""
  | none => False

instance (o : Option String) : Decidable (optStringTruthy o) := by
  unfold optStringTruthy; cases o <;> infer_instance

/-- Embedding of the body of `pollStatus` in StatusPage: on a request error
polling stops (the catch branch sets the error and does not reschedule); on
a response, the source's branch order is completed-with-lesson (stop),
error (stop), not-completed (schedule one re-poll in 2000 ms), otherwise
stop. -/
def pollStatusStep (result : Except String JobStatusResponse) : PollAction :=
  match result with
  | Except.error _ => PollAction.stop
  | Except.ok status =>
    if status.status = "completed" ∧ optStringTruthy status.lesson_id then
      PollAction.stop
    else if status.status = "error" then PollAction.stop
    else if status.status ≠ "completed" then PollAction.reschedule 2000
    else PollAction.stop

/-! ## LessonViewer step navigation (src/unnamed/part_004) -/

/-- Embedding of `nextStep`: increment `currentStepIndex` only while it is
strictly below `steps.length - 1`. -/
def nextStep (stepsLength : Nat) (currentStepIndex : Nat) : Nat :=
  if currentStepIndex < stepsLength - 1 then currentStepIndex + 1
  else currentStepIndex

/-- Embedding of `prevStep`: decrement `currentStepIndex` only while it is
strictly positive. -/
def prevStep (currentStepIndex : Nat) : Nat :=
  if currentStepIndex > 0 then currentStepIndex - 1 else currentStepIndex

/-- The navigation events of LessonViewer: the Previous/Next buttons and the
per-step dot buttons, which call `setCurrentStepIndex(index)` for a rendered
index (one dot per element of `lesson.steps`). -/
inductive NavEvent where
  | next
  | prev
  | selectDot (index : Nat)
  deriving Repr, DecidableEq

/-- One navigation event applied to `currentStepIndex`. -/
def navStep (stepsLength : Nat) (currentStepIndex : Nat) : NavEvent → Nat
  | NavEvent.next => nextStep stepsLength currentStepIndex
  | NavEvent.prev => prevStep currentStepIndex
  | NavEvent.selectDot i => i

/-- The `currentStepIndex` after a sequence of navigation events, starting
from the initial `useState(0)`. -/
def navRun (stepsLength : Nat) (events : List NavEvent) : Nat :=
  events.foldl (navStep stepsLength) 0

/-! ## MathRenderer cleanLatex (src/unnamed/part_003)

The three chained string operations are embedded at the character level:
a left-to-right scan replacing each match of the regular expression
`\text\x7b[^\x7d]+\x7d` (literal backslash-text-brace, then one or more
non-closing-brace characters, then a closing brace) with
`\mathrm\x7b...\x7d`, a left-to-right deletion of each literal
`\displaystyle`, and the ECMAScript `trim`. -/

/-- The literal head of the `\text\x7b...\x7d` regular expression. -/
def textPattern : List Char := ['\\', 't', 'e', 'x', 't', '\x7b']

/-- The replacement head `\mathrm\x7b` substituted for `\text\x7b`. -/
def mathrmPattern : List Char := ['\\', 'm', 'a', 't', 'h', 'r', 'm', '\x7b']

/-- The literal `\displaystyle` deleted by the second `replace`. -/
def displaystylePattern : List Char :=
  ['\\', 'd', 'i', 's', 'p', 'l', 'a', 'y', 's', 't', 'y', 'l', 'e']

/-- Embedding of `.replace(/\\text\x7b([^\x7d]+)\x7d/g, ...)`: scan left to
right; at a position starting with `\text\x7b` whose following run of
non-`\x7d` characters is non-empty and is closed by `\x7d`, emit
`\mathrm\x7b`, the run, and `\x7d`, and continue after the match; at every
other position keep the character and advance by one. -/
def replaceTextCommands : List Char → List Char
  | [] => []
  | c :: cs =>
    if textPattern.isPrefixOf (c :: cs) &&
        !((cs.drop 5).takeWhile (· ≠ '\x7d')).isEmpty &&
        !((cs.drop 5).dropWhile (· ≠ '\x7d')).isEmpty then
      mathrmPattern ++ (cs.drop 5).takeWhile (· ≠ '\x7d') ++
        '\x7d' :: replaceTextCommands ((cs.drop 5).dropWhile (· ≠ '\x7d')).tail
    else
      c :: replaceTextCommands cs
  termination_by l => l.length
  decreasing_by
  · have h1 : ((cs.drop 5).dropWhile (· ≠ '\x7d')).length ≤ (cs.drop 5).length :=
      ((cs.drop 5).dropWhile_sublist (· ≠ '\x7d')).length_le
    have h2 : (cs.drop 5).length ≤ cs.length := (cs.drop_sublist 5).length_le
    have h3 : (((cs.drop 5).dropWhile (· ≠ '\x7d')).tail).length ≤
        ((cs.drop 5).dropWhile (· ≠ '\x7d')).length :=
      (((cs.drop 5).dropWhile (· ≠ '\x7d')).tail_sublist).length_le
    simp only [List.length_cons]
    omega
  · simp only [List.length_cons]
    omega

/-- Embedding of `.replace(/\\displaystyle/g, '')`: scan left to right,
deleting each occurrence of the literal and continuing after it. -/
def removeDisplaystyle : List Char → List Char
  | [] => []
  | c :: cs =>
    if displaystylePattern.isPrefixOf (c :: cs) then
      removeDisplaystyle (cs.drop 12)
    else
      c :: removeDisplaystyle cs
  termination_by l => l.length
  decreasing_by
  · have h2 : (cs.drop 12).length ≤ cs.length := (cs.drop_sublist 12).length_le
    simp only [List.length_cons]
    omega
  · simp only [List.length_cons]
    omega

/-- The character set removed by ECMAScript `String.prototype.trim`
(WhiteSpace and LineTerminator code points). -/
def jsWhitespaceChars : List Char :=
  ['\t', '\n', '\x0b', '\x0c', '\r', ' ', '\xa0', '\u1680', '\u2000',
   '\u2001', '\u2002', '\u2003', '\u2004', '\u2005', '\u2006', '\u2007',
   '\u2008', '\u2009', '\u200a', '\u2028', '\u2029', '\u202f', '\u205f',
   '\u3000', '\ufeff']

/-- Whether `trim` strips the character. -/
def isJsWhitespace (c : Char) : Bool := jsWhitespaceChars.contains c

/-- Embedding of `.trim()`: drop leading and trailing whitespace. -/
def jsTrim (l : List Char) : List Char :=
  ((l.dropWhile isJsWhitespace).reverse.dropWhile isJsWhitespace).reverse

/-- Embedding of `cleanLatex` in MathRenderer: `\text` replacement, then
`\displaystyle` removal, then `trim`. -/
def cleanLatex (latex : List Char) : List Char :=
  jsTrim (removeDisplaystyle (replaceTextCommands latex))

/-! ## Theorems -/

/-- C1: for every upload attempt with an empty list of selected files, the
submit handler reports the validation error and returns without issuing the
upload request, so no job id is ever produced for a zero-image
submission. -/
theorem c1_empty_submission_rejected (files : List ImageFile)
    (h : files.length = 0) :
    handleUpload files =
      SubmitOutcome.validationError
        "Please select at least one image to upload" ∧
    ∀ fs tags, handleUpload files ≠ SubmitOutcome.request fs tags := by
  refine ⟨by simp [handleUpload, h], ?_⟩
  intro fs tags
  simp [handleUpload, h]

/-- Witness for C1 at the concrete empty selection. -/
theorem c1_empty_submission_rejected_witness :
    handleUpload [] =
      SubmitOutcome.validationError
        "Please select at least one image to upload" ∧
    ∀ fs tags, handleUpload ([] : List ImageFile) ≠
      SubmitOutcome.request fs tags :=
  c1_empty_submission_rejected [] rfl

/-- C2 fails as stated: two images user-tagged with the same string keep the
duplicate tag; position 1 is sent "dup", not the claimed default "pic2". -/
theorem c2_counterexample :
    handleUpload
        [{ file := 0, preview := "blob:0", tag := "dup" },
         { file := 1, preview := "blob:1", tag := "dup" }] =
      SubmitOutcome.request [0, 1] ["dup", "dup"] ∧
    "dup" ≠ "pic2" := by
  constructor
  · decide
  · decide

/-- C2 (amended): for every submission of n files, the tag sent for the
image at position k (0-based) is pic(k+1) exactly when the user-supplied
tag is unset/empty — a tag that duplicates another image's tag is sent
unchanged — and the tags are sent in upload order. -/
theorem c2_tag_defaulting (files : List ImageFile) (hne : files ≠ []) :
    handleUpload files =
      SubmitOutcome.request (files.map (·.file)) (buildTags files) ∧
    (buildTags files).length = files.length ∧
    ∀ k fileObj, files[k]? = some fileObj →
      (buildTags files)[k]? =
        some (if fileObj.tag = "" then "pic" ++ toString (k + 1)
          else fileObj.tag) := by
  refine ⟨?_, ?_, ?_⟩
  · simp [handleUpload, hne]
  · simp [buildTags]
  · intro k fileObj hk
    simp [buildTags, List.getElem?_mapIdx, hk]

/-- Witness for C2 at a concrete two-image submission with one unset tag. -/
theorem c2_tag_defaulting_witness :
    handleUpload
        [{ file := 7, preview := "blob:7", tag := "" },
         { file := 8, preview := "blob:8", tag := "mine" }] =
      SubmitOutcome.request [7, 8]
        (buildTags
          [{ file := 7, preview := "blob:7", tag := "" },
           { file := 8, preview := "blob:8", tag := "mine" }]) ∧
    (buildTags
        [{ file := 7, preview := "blob:7", tag := "" },
         { file := 8, preview := "blob:8", tag := "mine" }]).length = 2 ∧
    ∀ k fileObj,
      ([{ file := 7, preview := "blob:7", tag := "" },
        { file := 8, preview := "blob:8", tag := "mine" }] :
          List ImageFile)[k]? = some fileObj →
      (buildTags
        [{ file := 7, preview := "blob:7", tag := "" },
         { file := 8, preview := "blob:8", tag := "mine" }])[k]? =
        some (if fileObj.tag = "" then "pic" ++ toString (k + 1)
          else fileObj.tag) :=
  c2_tag_defaulting
    [{ file := 7, preview := "blob:7", tag := "" },
     { file := 8, preview := "blob:8", tag := "mine" }] (by decide)

/-- C4: every backend response with HTTP status 404 is rejected by the
shared response interceptor with the exact message "Resource not found",
uniformly for uploadImages, getJobStatus and getLesson. -/
theorem c4_notfound_mapping (e : AxiosError)
    (h : e.response.map (·.status) = some 404) :
    uploadImages (Sum.inl e) = Except.error "Resource not found" ∧
    getJobStatus (Sum.inl e) = Except.error "Resource not found" ∧
    getLesson (Sum.inl e) = Except.error "Resource not found" := by
  refine ⟨?_, ?_, ?_⟩ <;>
    simp [uploadImages, getJobStatus, getLesson, runApi, interceptError, h]

/-- Witness for C4 at a concrete 404 rejection. -/
theorem c4_notfound_mapping_witness :
    uploadImages (Sum.inl ⟨some ⟨404, none⟩, none, "Request failed"⟩) =
      Except.error "Resource not found" ∧
    getJobStatus (Sum.inl ⟨some ⟨404, none⟩, none, "Request failed"⟩) =
      Except.error "Resource not found" ∧
    getLesson (Sum.inl ⟨some ⟨404, none⟩, none, "Request failed"⟩) =
      Except.error "Resource not found" :=
  c4_notfound_mapping ⟨some ⟨404, none⟩, none, "Request failed"⟩ rfl

/-- C6: every request through the shared api instance carries the 30000 ms
timeout from axios.create, and a timed-out request (axios code
ECONNABORTED, no response received) is converted by the interceptor into
the error message "Request timed out". -/
theorem c6_timeout_bound :
    (∀ envApiUrl, (api envApiUrl).timeout = 30000) ∧
    (∀ e : AxiosError, e.code = some "ECONNABORTED" → e.response = none →
      interceptError e = "Request timed out") := by
  refine ⟨fun _ => rfl, ?_⟩
  intro e hcode hresp
  simp [interceptError, hcode, hresp]

/-- Witness for C6 at a concrete environment and concrete timeout error. -/
theorem c6_timeout_bound_witness :
    (api none).timeout = 30000 ∧
    interceptError
        { response := none, code := some "ECONNABORTED",
          message := "timeout of 30000ms exceeded" } =
      "Request timed out" :=
  ⟨c6_timeout_bound.1 none,
    c6_timeout_bound.2
      { response := none, code := some "ECONNABORTED",
        message := "timeout of 30000ms exceeded" } rfl rfl⟩

/-- C7: the status snapshot returned by getJobStatus is a record with
exactly the fields job_id, status, created_at (strings), ocr_done,
llm_done, lesson_built (booleans) and the optional lesson_id and error,
and getJobStatus forwards exactly that record. -/
theorem c7_status_snapshot_shape :
    (∀ r : JobStatusResponse,
      r = ⟨r.job_id, r.status, r.created_at, r.ocr_done, r.llm_done,
        r.lesson_built, r.lesson_id, r.error⟩) ∧
    (∀ v : JobStatusResponse, getJobStatus (Sum.inr v) = Except.ok v) :=
  ⟨fun _ => rfl, fun _ => rfl⟩

/-- Helper: one ImageUpload event cannot grow the list past `maxFiles`. -/
theorem uploadStep_length_le (maxFiles : Nat) (files : List ImageFile)
    (e : UploadEvent) (h : files.length ≤ maxFiles) :
    (uploadStep maxFiles files e).length ≤ maxFiles := by
  cases e with
  | drop accepted =>
    simp only [uploadStep, onDrop, List.length_take]
    omega
  | remove i =>
    simp only [uploadStep, removeFile]
    calc ((files.enum.filter fun p => p.1 ≠ i).map (·.2)).length
        = (files.enum.filter fun p => p.1 ≠ i).length := List.length_map _ _
      _ ≤ files.enum.length := List.length_filter_le _ _
      _ = files.length := List.enum_length
      _ ≤ maxFiles := h

/-- Helper: the length bound is preserved along any event sequence. -/
theorem uploadFoldl_length_le (maxFiles : Nat) (events : List UploadEvent) :
    ∀ s : List ImageFile, s.length ≤ maxFiles →
      (events.foldl (uploadStep maxFiles) s).length ≤ maxFiles := by
  induction events with
  | nil => intro s h; simpa using h
  | cons e es ih =>
    intro s h
    simpa using ih (uploadStep maxFiles s e) (uploadStep_length_le _ _ _ h)

/-- C3: after every sequence of drop and remove events the ImageUpload file
list has length at most maxFiles (5 as instantiated by the upload page),
and a drop onto a list within the limit keeps the existing files and
truncates the combined list to the first maxFiles entries. -/
theorem c3_bounded_batch_size (events : List UploadEvent)
    (maxFiles : Nat) (files : List ImageFile)
    (acceptedFiles : List (Nat × String))
    (h : files.length ≤ maxFiles) :
    (uploadRun uploadPageMaxFiles events).length ≤ uploadPageMaxFiles ∧
    onDrop maxFiles files acceptedFiles =
      files ++ (acceptedFiles.map fun p =>
        ({ file := p.1, preview := p.2, tag := "" } : ImageFile)).take
        (maxFiles - files.length) := by
  constructor
  · exact uploadFoldl_length_le uploadPageMaxFiles events [] (by simp)
  · simp only [onDrop, List.take_append_eq_append_take,
      List.take_of_length_le h]

/-- Witness for C3: a 3-file drop onto a 4-element list with the page's
limit of 5 keeps the 4 files and takes only the first new file. -/
theorem c3_bounded_batch_size_witness :
    (uploadRun uploadPageMaxFiles
      [UploadEvent.drop [(1, "u1"), (2, "u2"), (3, "u3")],
       UploadEvent.drop [(4, "u4"), (5, "u5"), (6, "u6")],
       UploadEvent.remove 0]).length ≤ uploadPageMaxFiles ∧
    onDrop 5
        [⟨1, "u1", ""⟩, ⟨2, "u2", ""⟩, ⟨3, "u3", ""⟩, ⟨4, "u4", ""⟩]
        [(5, "u5"), (6, "u6"), (7, "u7")] =
      [⟨1, "u1", ""⟩, ⟨2, "u2", ""⟩, ⟨3, "u3", ""⟩, ⟨4, "u4", ""⟩] ++
        (([(5, "u5"), (6, "u6"), (7, "u7")] : List (Nat × String)).map
          fun p => ({ file := p.1, preview := p.2, tag := "" } : ImageFile)).take
          (5 - 4) :=
  c3_bounded_batch_size
    [UploadEvent.drop [(1, "u1"), (2, "u2"), (3, "u3")],
     UploadEvent.drop [(4, "u4"), (5, "u5"), (6, "u6")],
     UploadEvent.remove 0]
    5 [⟨1, "u1", ""⟩, ⟨2, "u2", ""⟩, ⟨3, "u3", ""⟩, ⟨4, "u4", ""⟩]
    [(5, "u5"), (6, "u6"), (7, "u7")] (by decide)

/-- C5: a poll response with terminal status (completed or error), and a
failed status request, schedule no further poll; every non-terminal status
schedules exactly one re-poll 2000 ms later; so polling stops exactly at a
terminal status or a request error. -/
theorem c5_polling_stops_at_terminal :
    (∀ result, pollStatusStep result = PollAction.stop ↔
      ((∃ msg, result = Except.error msg) ∨
        ∃ st, result = Except.ok st ∧
          (st.status = "completed" ∨ st.status = "error"))) ∧
    (∀ st : JobStatusResponse,
      st.status ≠ "completed" → st.status ≠ "error" →
      pollStatusStep (Except.ok st) = PollAction.reschedule 2000) := by
  constructor
  · intro result
    cases result with
    | error msg => simp [pollStatusStep]
    | ok st =>
      by_cases hc : st.status = "completed"
      · by_cases ht : optStringTruthy st.lesson_id <;>
          simp [pollStatusStep, hc, ht]
      · by_cases he : st.status = "error" <;>
          simp [pollStatusStep, hc, he]
  · intro st hc he
    simp [pollStatusStep, hc, he]

/-- Witness for C5: terminal statuses stop, a processing status re-polls in
2000 ms. -/
theorem c5_polling_stops_at_terminal_witness :
    pollStatusStep
        (Except.ok ⟨"j1", "completed", "t0", true, true, true,
          some "l1", none⟩) = PollAction.stop ∧
    pollStatusStep
        (Except.ok ⟨"j1", "processing", "t0", false, false, false,
          none, none⟩) = PollAction.reschedule 2000 :=
  ⟨(c5_polling_stops_at_terminal.1
      (Except.ok ⟨"j1", "completed", "t0", true, true, true,
        some "l1", none⟩)).mpr
      (Or.inr ⟨_, rfl, Or.inl rfl⟩),
    c5_polling_stops_at_terminal.2
      ⟨"j1", "processing", "t0", false, false, false, none, none⟩
      (by decide) (by decide)⟩

/-- C9: updateTag is frame-preserving: the list keeps its length and order,
every element other than position index is unchanged in all fields, and at
position index only the tag field is replaced (file and preview kept). -/
theorem c9_update_tag_frame (files : List ImageFile) (index : Nat)
    (tag : String) :
    (updateTag files index tag).length = files.length ∧
    (∀ i fileObj, i ≠ index → files[i]? = some fileObj →
      (updateTag files index tag)[i]? = some fileObj) ∧
    (∀ fileObj, files[index]? = some fileObj →
      (updateTag files index tag)[index]? =
        some ⟨fileObj.file, fileObj.preview, tag⟩) := by
  refine ⟨by simp [updateTag], ?_, ?_⟩
  · intro i fileObj hne hget
    simp [updateTag, List.getElem?_mapIdx, hget, hne]
  · intro fileObj hget
    simp [updateTag, List.getElem?_mapIdx, hget]

/-- Witness for C9 at a concrete three-element list. -/
theorem c9_update_tag_frame_witness :
    (updateTag [⟨1, "u1", "a"⟩, ⟨2, "u2", "b"⟩, ⟨3, "u3", "c"⟩] 1
      "fresh").length = 3 ∧
    (updateTag [⟨1, "u1", "a"⟩, ⟨2, "u2", "b"⟩, ⟨3, "u3", "c"⟩] 1
      "fresh")[0]? = some ⟨1, "u1", "a"⟩ ∧
    (updateTag [⟨1, "u1", "a"⟩, ⟨2, "u2", "b"⟩, ⟨3, "u3", "c"⟩] 1
      "fresh")[1]? = some ⟨2, "u2", "fresh"⟩ :=
  ⟨(c9_update_tag_frame [⟨1, "u1", "a"⟩, ⟨2, "u2", "b"⟩, ⟨3, "u3", "c"⟩]
      1 "fresh").1,
    (c9_update_tag_frame [⟨1, "u1", "a"⟩, ⟨2, "u2", "b"⟩, ⟨3, "u3", "c"⟩]
      1 "fresh").2.1 0 ⟨1, "u1", "a"⟩ (by decide) rfl,
    (c9_update_tag_frame [⟨1, "u1", "a"⟩, ⟨2, "u2", "b"⟩, ⟨3, "u3", "c"⟩]
      1 "fresh").2.2 ⟨2, "u2", "b"⟩ rfl⟩

/-- Helper: one navigation event keeps the step index below the number of
steps. -/
theorem navStep_lt (stepsLength s : Nat) (e : NavEvent) (hs : s < stepsLength)
    (hsel : ∀ i, e = NavEvent.selectDot i → i < stepsLength) :
    navStep stepsLength s e < stepsLength := by
  cases e with
  | next => simp only [navStep, nextStep]; split <;> omega
  | prev => simp only [navStep, prevStep]; split <;> omega
  | selectDot i => exact hsel i rfl

/-- Helper: the in-bounds invariant is preserved along any event
sequence. -/
theorem navFoldl_lt (stepsLength : Nat) (events : List NavEvent) :
    ∀ s : Nat, s < stepsLength →
      (∀ i, NavEvent.selectDot i ∈ events → i < stepsLength) →
      events.foldl (navStep stepsLength) s < stepsLength := by
  induction events with
  | nil => intro s hs _; simpa using hs
  | cons e es ih =>
    intro s hs hsel
    simp only [List.foldl_cons]
    exact ih (navStep stepsLength s e)
      (navStep_lt stepsLength s e hs
        (fun i hei => hsel i (by simp [hei])))
      (fun i hi => hsel i (by simp [hi]))

/-- C10: starting from index 0, for every non-empty step list every
sequence of nextStep, prevStep and dot selections (dots exist only for
indices below steps.length) keeps the current step index strictly below
steps.length, so the displayed current step always exists. -/
theorem c10_step_index_in_bounds (stepsLength : Nat)
    (events : List NavEvent) (hlen : 1 ≤ stepsLength)
    (hsel : ∀ i, NavEvent.selectDot i ∈ events → i < stepsLength) :
    navRun stepsLength events < stepsLength :=
  navFoldl_lt stepsLength events 0 hlen hsel

/-- Witness for C10 on a two-step lesson with a mixed event sequence. -/
theorem c10_step_index_in_bounds_witness :
    navRun 2 [NavEvent.next, NavEvent.next, NavEvent.selectDot 0,
      NavEvent.prev, NavEvent.next] < 2 :=
  c10_step_index_in_bounds 2
    [NavEvent.next, NavEvent.next, NavEvent.selectDot 0,
      NavEvent.prev, NavEvent.next]
    (by decide) (by intro i hi; simp at hi; omega)

/-- Helper: `removeDisplaystyle` is the identity on strings with no
`\displaystyle` occurrence. -/
theorem removeDisplaystyle_eq_self (l : List Char)
    (h : ¬ displaystylePattern <:+: l) : removeDisplaystyle l = l := by
  induction l using removeDisplaystyle.induct with
  | case1 => simp [removeDisplaystyle]
  | case2 c cs hpre ih =>
    exact absurd (( List.isPrefixOf_iff_prefix.mp hpre).isInfix) h
  | case3 c cs hpre ih =>
    simp only [removeDisplaystyle, hpre, if_false, Bool.false_eq_true]
    exact congrArg (c :: ·) (ih (fun hin => h (List.infix_cons hin)))

/-- Helper: `replaceTextCommands` is the identity on strings with no
`\text` occurrence. -/
theorem replaceTextCommands_eq_self (l : List Char)
    (h : ¬ ['\\', 't', 'e', 'x', 't'] <:+: l) :
    replaceTextCommands l = l := by
  induction l using replaceTextCommands.induct with
  | case1 => simp [replaceTextCommands]
  | case2 c cs hcond ih =>
    have hpre : textPattern.isPrefixOf (c :: cs) = true := by
      simp only [Bool.and_eq_true] at hcond
      exact hcond.1.1
    have : (['\\', 't', 'e', 'x', 't'] : List Char) <+: textPattern :=
      ⟨['\x7b'], rfl⟩
    exact absurd ((this.trans ( List.isPrefixOf_iff_prefix.mp hpre)).isInfix) h
  | case3 c cs hcond ih =>
    simp only [replaceTextCommands, hcond, if_false, Bool.false_eq_true]
    exact congrArg (c :: ·) (ih (fun hin => h (List.infix_cons hin)))

/-- Helper: `dropWhile` keeps a list whose head fails the predicate. -/
theorem dropWhile_eq_self_of_head (p : Char → Bool) (l : List Char)
    (h : ∀ c, l.head? = some c → p c = false) : l.dropWhile p = l := by
  cases l with
  | nil => rfl
  | cons a l' => simp [List.dropWhile_cons, h a rfl]

/-- Helper: `jsTrim` is the identity when neither end is whitespace. -/
theorem jsTrim_eq_self (l : List Char)
    (h1 : ∀ c, l.head? = some c → isJsWhitespace c = false)
    (h2 : ∀ c, l.getLast? = some c → isJsWhitespace c = false) :
    jsTrim l = l := by
  unfold jsTrim
  rw [dropWhile_eq_self_of_head _ _ h1,
    dropWhile_eq_self_of_head _ _ (fun c hc => h2 c (by
      rwa [List.head?_reverse] at hc)),
    List.reverse_reverse]


/-- Helper: `takeWhile` passes over a block that satisfies the predicate. -/
theorem takeWhile_append_of_all (p : Char → Bool) (l1 l2 : List Char)
    (h : ∀ x ∈ l1, p x = true) :
    (l1 ++ l2).takeWhile p = l1 ++ l2.takeWhile p := by
  rw [List.takeWhile_append, if_pos]
  rw [List.takeWhile_eq_self_iff.mpr h]

/-- Helper: `dropWhile` drops a whole block that satisfies the predicate. -/
theorem dropWhile_append_of_all (p : Char → Bool) (l1 l2 : List Char)
    (h : ∀ x ∈ l1, p x = true) :
    (l1 ++ l2).dropWhile p = l2.dropWhile p := by
  rw [List.dropWhile_append, if_pos]
  rw [List.isEmpty_iff, List.dropWhile_eq_nil_iff]
  exact h

/-- Helper: the first element surviving `dropWhile` fails the predicate. -/
theorem dropWhile_head_false (p : Char → Bool) :
    ∀ (l : List Char) (d : Char) (ds : List Char),
      l.dropWhile p = d :: ds → p d = false := by
  intro l
  induction l with
  | nil => intro d ds h; cases h
  | cons a l' ih =>
    intro d ds h
    rw [List.dropWhile_cons] at h
    by_cases ha : p a = true
    · rw [if_pos ha] at h
      exact ih d ds h
    · rw [if_neg ha] at h
      cases h
      exact Bool.eq_false_iff.mpr ha

/-- Helper: an occurrence of a replaceable group at the scan position is
replaced and the scan continues after the closing brace. -/
theorem replaceTextCommands_match (content rest : List Char)
    (hne : content ≠ []) (hbr : '\x7d' ∉ content) :
    replaceTextCommands (textPattern ++ content ++ '\x7d' :: rest) =
      mathrmPattern ++ content ++ '\x7d' :: replaceTextCommands rest := by
  have hall : ∀ x ∈ content, (x ≠ '\x7d' : Bool) = true := by
    intro x hx
    simp only [decide_eq_true_eq]
    exact fun hx7d => hbr (hx7d ▸ hx)
  have htake : (content ++ '\x7d' :: rest).takeWhile (· ≠ '\x7d') = content := by
    rw [takeWhile_append_of_all _ _ _ hall]
    simp [List.takeWhile_cons]
  have hdrop :
      (content ++ '\x7d' :: rest).dropWhile (· ≠ '\x7d') = '\x7d' :: rest := by
    rw [dropWhile_append_of_all _ _ _ hall]
    simp [List.dropWhile_cons]
  have hshape : textPattern ++ content ++ '\x7d' :: rest =
      '\\' :: 't' :: 'e' :: 'x' :: 't' :: '\x7b' ::
        (content ++ '\x7d' :: rest) := by
    simp [textPattern]
  rw [hshape, replaceTextCommands]
  simp only [List.drop_succ_cons, List.drop_zero, htake, hdrop]
  rw [if_pos]
  · simp [mathrmPattern]
  · simp [ List.isPrefixOf_iff_prefix, textPattern, hne]

/-- Helper: a position that starts no replaceable group passes through with
the character kept and the scan advanced by one. -/
theorem replaceTextCommands_skip (c : Char) (cs : List Char)
    (h : ¬ ∃ content rest, content ≠ [] ∧ '\x7d' ∉ content ∧
      c :: cs = textPattern ++ content ++ '\x7d' :: rest) :
    replaceTextCommands (c :: cs) = c :: replaceTextCommands cs := by
  have hcond : ¬ ((textPattern.isPrefixOf (c :: cs) &&
      !((cs.drop 5).takeWhile (· ≠ '\x7d')).isEmpty &&
      !((cs.drop 5).dropWhile (· ≠ '\x7d')).isEmpty) = true) := by
    intro hcond
    apply h
    simp only [Bool.and_eq_true] at hcond
    obtain ⟨⟨hpre, htk⟩, hdr⟩ := hcond
    have htk' : (cs.drop 5).takeWhile (· ≠ '\x7d') ≠ [] := by
      intro hnil
      rw [hnil] at htk
      simp at htk
    have hdr' : (cs.drop 5).dropWhile (· ≠ '\x7d') ≠ [] := by
      intro hnil
      rw [hnil] at hdr
      simp at hdr
    obtain ⟨t, ht⟩ := List.isPrefixOf_iff_prefix.mp hpre
    have hts : t = cs.drop 5 := by
      have := congrArg (List.drop 6) ht
      rwa [show List.drop 6 (c :: cs) = cs.drop 5 from rfl,
        show (6 : Nat) = textPattern.length from rfl,
        List.drop_left] at this
    obtain ⟨d, ds, hsplit⟩ :
        ∃ d ds, (cs.drop 5).dropWhile (· ≠ '\x7d') = d :: ds := by
      cases hcase : (cs.drop 5).dropWhile (· ≠ '\x7d') with
      | nil => exact absurd hcase hdr'
      | cons d ds => exact ⟨d, ds, rfl⟩
    have hd : d = '\x7d' := by
      have := dropWhile_head_false (· ≠ '\x7d') (cs.drop 5) d ds hsplit
      simpa using this
    refine ⟨(cs.drop 5).takeWhile (· ≠ '\x7d'), ds, htk', ?_, ?_⟩
    · intro hmem
      have := List.mem_takeWhile_imp hmem
      simp at this
    · subst hd
      have hsplit' : (cs.drop 5).takeWhile (· ≠ '\x7d') ++
          '\x7d' :: ds = cs.drop 5 := by
        rw [← hsplit]
        exact List.takeWhile_append_dropWhile _ _
      rw [← ht, hts, List.append_assoc, hsplit']
  rw [replaceTextCommands, if_neg hcond]

/-- Helper: an occurrence of the displaystyle literal at the scan position
is deleted and the scan continues after it. -/
theorem removeDisplaystyle_match (rest : List Char) :
    removeDisplaystyle (displaystylePattern ++ rest) =
      removeDisplaystyle rest := by
  have hshape : displaystylePattern ++ rest =
      '\\' :: 'd' :: 'i' :: 's' :: 'p' :: 'l' :: 'a' :: 'y' :: 's' ::
        't' :: 'y' :: 'l' :: 'e' :: rest := by
    simp [displaystylePattern]
  rw [hshape, removeDisplaystyle]
  rw [if_pos]
  · rfl
  · simp [ List.isPrefixOf_iff_prefix, displaystylePattern]

/-- Helper: a position not starting the displaystyle literal passes through
with the character kept and the scan advanced by one. -/
theorem removeDisplaystyle_skip (c : Char) (cs : List Char)
    (h : ¬ displaystylePattern <+: c :: cs) :
    removeDisplaystyle (c :: cs) = c :: removeDisplaystyle cs := by
  have hcond : ¬ (displaystylePattern.isPrefixOf (c :: cs) = true) :=
    fun hp => h ( List.isPrefixOf_iff_prefix.mp hp)
  rw [removeDisplaystyle, if_neg hcond]

/-- Helper: `jsTrim` on the whitespace decomposition of a string removes
exactly the maximal whitespace runs at both ends. -/
theorem jsTrim_decomposition (u m w : List Char)
    (hu : ∀ x ∈ u, isJsWhitespace x = true)
    (hw : ∀ x ∈ w, isJsWhitespace x = true)
    (hm1 : ∀ x, m.head? = some x → isJsWhitespace x = false)
    (hm2 : ∀ x, m.getLast? = some x → isJsWhitespace x = false) :
    jsTrim (u ++ m ++ w) = m := by
  unfold jsTrim
  rw [List.append_assoc, dropWhile_append_of_all _ _ _ hu]
  cases m with
  | nil =>
    simp only [List.nil_append]
    rw [List.dropWhile_eq_nil_iff.mpr hw]
    rfl
  | cons d m' =>
    have hd : isJsWhitespace d = false := hm1 d rfl
    rw [List.cons_append, List.dropWhile_cons, if_neg (by simp [hd]),
      ← List.cons_append, List.reverse_append,
      dropWhile_append_of_all _ _ _
        (fun x hx => hw x (List.mem_reverse.mp hx)),
      dropWhile_eq_self_of_head _ _
        (fun x hx => hm2 x (by rwa [List.head?_reverse] at hx)),
      List.reverse_reverse]

/-- C8 (amended): cleanLatex replaces every left-to-right, non-overlapping
occurrence of a backslash-text group whose content is non-empty and free of
closing braces with the corresponding backslash-mathrm group, deletes every
occurrence of the literal backslash-displaystyle, trims edge whitespace,
and changes nothing else.  The two scan passes are characterized on every
input string by their behavior at each position (a replaceable occurrence
is rewritten and the scan resumes after it; any other position is passed
through unchanged), the trim pass by the whitespace decomposition of an
arbitrary string, and in particular cleanLatex is the identity (hence
idempotent) on strings containing no backslash-text, no
backslash-displaystyle and no edge whitespace. -/
theorem c8_clean_latex :
    (replaceTextCommands [] = [] ∧
      (∀ content rest : List Char, content ≠ [] → '\x7d' ∉ content →
        replaceTextCommands (textPattern ++ content ++ '\x7d' :: rest) =
          mathrmPattern ++ content ++ '\x7d' :: replaceTextCommands rest) ∧
      (∀ (c : Char) (cs : List Char),
        (¬ ∃ content rest, content ≠ [] ∧ '\x7d' ∉ content ∧
          c :: cs = textPattern ++ content ++ '\x7d' :: rest) →
        replaceTextCommands (c :: cs) = c :: replaceTextCommands cs)) ∧
    (removeDisplaystyle [] = [] ∧
      (∀ rest : List Char,
        removeDisplaystyle (displaystylePattern ++ rest) =
          removeDisplaystyle rest) ∧
      (∀ (c : Char) (cs : List Char), ¬ displaystylePattern <+: c :: cs →
        removeDisplaystyle (c :: cs) = c :: removeDisplaystyle cs)) ∧
    (∀ u m w : List Char, (∀ x ∈ u, isJsWhitespace x = true) →
      (∀ x ∈ w, isJsWhitespace x = true) →
      (∀ x, m.head? = some x → isJsWhitespace x = false) →
      (∀ x, m.getLast? = some x → isJsWhitespace x = false) →
      jsTrim (u ++ m ++ w) = m) ∧
    (∀ latex : List Char,
      ¬ ['\\', 't', 'e', 'x', 't'] <:+: latex →
      ¬ displaystylePattern <:+: latex →
      (∀ x, latex.head? = some x → isJsWhitespace x = false) →
      (∀ x, latex.getLast? = some x → isJsWhitespace x = false) →
      cleanLatex latex = latex) := by
  refine ⟨⟨by simp [replaceTextCommands], replaceTextCommands_match,
      replaceTextCommands_skip⟩,
    ⟨by simp [removeDisplaystyle], removeDisplaystyle_match,
      removeDisplaystyle_skip⟩,
    jsTrim_decomposition, ?_⟩
  intro latex ht hd hw1 hw2
  unfold cleanLatex
  rw [replaceTextCommands_eq_self latex ht,
    removeDisplaystyle_eq_self latex hd,
    jsTrim_eq_self latex hw1 hw2]

/-- C8 fails as stated, in both directions of "content without braces".
First input: its only candidate group content contains an opening brace, so
under the claim the string has no replaceable occurrence, no displaystyle
and no edge whitespace and must come back unchanged; the code still
rewrites the backslash-text head to backslash-mathrm, because the regular
expression excludes only closing braces from the content.  Second input: an
empty group is brace-free content per the claim and should be replaced; the
code leaves it unchanged, because the regular expression requires at least
one content character. -/
theorem c8_counterexample :
    (cleanLatex ['\\', 't', 'e', 'x', 't', '\x7b', 'a', '\x7b', 'b', '\x7d'] =
        ['\\', 'm', 'a', 't', 'h', 'r', 'm', '\x7b', 'a', '\x7b', 'b',
          '\x7d'] ∧
      (['\\', 'm', 'a', 't', 'h', 'r', 'm', '\x7b', 'a', '\x7b', 'b', '\x7d'] :
          List Char) ≠
        ['\\', 't', 'e', 'x', 't', '\x7b', 'a', '\x7b', 'b', '\x7d']) ∧
    (cleanLatex ['\\', 't', 'e', 'x', 't', '\x7b', '\x7d'] =
        ['\\', 't', 'e', 'x', 't', '\x7b', '\x7d'] ∧
      (['\\', 't', 'e', 'x', 't', '\x7b', '\x7d'] : List Char) ≠
        ['\\', 'm', 'a', 't', 'h', 'r', 'm', '\x7b', '\x7d']) := by
  refine ⟨⟨?_, by decide⟩, ⟨?_, by decide⟩⟩ <;>
    simp [cleanLatex, replaceTextCommands, removeDisplaystyle, jsTrim,
      textPattern, mathrmPattern, displaystylePattern, isJsWhitespace,
      jsWhitespaceChars, List.isPrefixOf]

/-- Witness for C8: a replaced group followed by further input, a skipped
position, a deleted displaystyle occurrence, a skipped non-displaystyle
position, a trimmed decomposition, and an untouched trigger-free string. -/
theorem c8_clean_latex_witness :
    replaceTextCommands (textPattern ++ ['a', 'b'] ++ '\x7d' :: ['z']) =
      mathrmPattern ++ ['a', 'b'] ++ '\x7d' :: replaceTextCommands ['z'] ∧
    replaceTextCommands ['q'] = 'q' :: replaceTextCommands [] ∧
    removeDisplaystyle (displaystylePattern ++ ['q']) =
      removeDisplaystyle ['q'] ∧
    removeDisplaystyle ['q'] = 'q' :: removeDisplaystyle [] ∧
    jsTrim ([' '] ++ ['a'] ++ [' ']) = ['a'] ∧
    cleanLatex ['x', 'y'] = ['x', 'y'] :=
  ⟨c8_clean_latex.1.2.1 ['a', 'b'] ['z'] (by decide) (by decide),
    c8_clean_latex.1.2.2 'q' []
      (by rintro ⟨content, rest, hne, hbr, heq⟩; simp [textPattern] at heq),
    c8_clean_latex.2.1.2.1 ['q'],
    c8_clean_latex.2.1.2.2 'q' [] (by decide),
    c8_clean_latex.2.2.1 [' '] ['a'] [' '] (by decide) (by decide)
      (by intro x hx; cases hx; decide) (by intro x hx; cases hx; decide),
    c8_clean_latex.2.2.2 ['x', 'y'] (by decide) (by decide)
      (by intro x hx; cases hx; decide) (by intro x hx; cases hx; decide)⟩

end Mathixyz
